import Mathlib

/-!
# Resilient GELF stream writers (`tcpwriter.go`, `tlswriter.go`)

A shallow embedding of the TCP and TLS writers.  The writer is a record of the
Go struct fields; the network, the serializer and the other collaborators that
are not part of the two files are the fields of an environment `Env`.  Every
network operation appends an `Event` to a log, and the environment answers each
operation from the log so far, so a connection may behave differently at every
call.

The two files define the same methods, which differ in `Dial` and in their
traces only; they are embedded once, with the `Dial` method as a parameter.
The connection field is an interface value: nil, a live connection, or the nil
`*tls.Conn` that `TLSWriter.Dial` stores when `tls.Dial` fails, on which every
method call panics.  The loop counter is a Go `int` and wraps at `2^63`.

The model is sequential: the mutual-exclusion guard `mu` is taken to be
initialised and free, and the `fmt.Println` traces are left out.
-/

namespace Gelf

/-! ## Data model -/

/-- One octet. -/
abbrev Byte := Fin 256

/-- A Go byte slice. -/
abbrev Bytes := List Byte

/-- A live connection, named by a number. -/
abbrev Conn := Nat

/-- A value of the interface `net.Conn` that is not nil: a live connection, or
a nil `*tls.Conn` held in the interface. -/
inductive NetConn where
  | live (c : Conn)
  | nilPtr
  deriving DecidableEq

/-- A Go `error` that is not nil, represented by its message. -/
abbrev Error := String

/-- A `*Message`: the pointer, which is the key of `MessageBuffer`. -/
abbrev Message := Nat

/-- A `*tls.Config`. -/
abbrev TLSConfig := Nat

/-- The observable operations on the outside world.  The argument of `sleep`
is the factor of `time.Second` slept. -/
inductive Event where
  | write (c : Conn) (b : Bytes)
  | dial (addr : String)
  | sleep (d : Int)
  | close (c : Conn)
  deriving DecidableEq

/-- The collaborators the two files call but do not define.  Each network
operation sees the log of everything that happened before it. -/
structure Env where
  /-- Go `conn.Write(b)` on a live connection: the byte count and the error. -/
  connWrite : List Event → Conn → Bytes → Int × Option Error
  /-- Go `conn.Close()` on a live connection. -/
  connClose : List Event → Conn → Option Error
  /-- Go `net.Dial(network, addr)`: the connection, nil or live, and the error. -/
  netDial : List Event → String → String → Option Conn × Option Error
  /-- Go `tls.Dial(network, addr, config)`: the `*tls.Conn`, nil or live, and
  the error. -/
  tlsDial : List Event → String → String → TLSConfig → Option Conn × Option Error
  /-- Go `os.Hostname()`. -/
  osHostname : String × Option Error
  /-- Go `m.toBytes(buf)`: the serialized record and the error. -/
  toBytes : Message → Bytes × Option Error
  /-- Go `constructMessage(p, hostname, facility, file, line)`: the pointer to
  the message built.  The Go call allocates a new message each time; here the
  pointer may also be one met before, which covers the new one. -/
  constructMessage : Bytes → String → String → String → Int → Message
  /-- Go `getCallerIgnoringLogMulti(depth)`. -/
  getCallerIgnoringLogMulti : Int → String × Int

/-- Go `DefaultMaxReconnect` (tcpwriter.go:13). -/
def DefaultMaxReconnect : Int := 3

/-- Go `DefaultReconnectDelay` (tcpwriter.go:14). -/
def DefaultReconnectDelay : Int := 1

/-- The largest Go `int`, `2^63 - 1`. -/
def maxInt : Int := 9223372036854775807

/-- The value a Go `int` holds after an arithmetic result `x`: `x` reduced
into `[-2^63, 2^63)` modulo `2^64`. -/
def wrapInt (x : Int) : Int :=
  (x + 9223372036854775808) % 18446744073709551616 - 9223372036854775808

/-- A Go `map[*Message]bool`: `none` is the nil map, `some l` an allocated map
with the entries of `l`. -/
abbrev MsgMap := Option (List (Message × Bool))

/-- The keys of a map, in the order a `range` visits them. -/
def mapKeys : MsgMap → List Message
  | none => []
  | some l => l.map Prod.fst

/-- Reading `mb[m]`: the stored value, `false` for a missing key or a nil map. -/
def mapGet : MsgMap → Message → Bool
  | none, _ => false
  | some l, m => (l.lookup m).getD false

/-- Writing `mb[m] = v` into an allocated map. -/
def mapSet (l : List (Message × Bool)) (m : Message) (v : Bool) : List (Message × Bool) :=
  if m ∈ l.map Prod.fst then l.map (fun e => if e.1 = m then (e.1, v) else e)
  else l ++ [(m, v)]

/-- The builtin `delete(mb, m)`; a no-op on the nil map. -/
def mapDelete : MsgMap → Message → MsgMap
  | none, _ => none
  | some l, m => some (l.filter (fun e => e.1 ≠ m))

/-- The fields of `TCPWriter` together with those of the embedded `GelfWriter`
that the two files use.  `MaxReconnect` is a Go `int`. -/
structure TCPWriter where
  addr : String
  conn : Option NetConn
  hostname : String
  Facility : String
  proto : String
  MaxReconnect : Int
  ReconnectDelay : Int
  MessageBuffer : MsgMap

/-- Go `TLSWriter`: an embedded `TCPWriter` and the TLS configuration. -/
structure TLSWriter where
  toTCPWriter : TCPWriter
  TlsConfig : TLSConfig

/-- A writer and the log of the operations performed so far. -/
structure State where
  w : TCPWriter
  log : List Event

/-- What a call that came to an end did: it returned, or it panicked. -/
inductive Result (α : Type) where
  | ok (a : α)
  | panic (s : State) (msg : String)

/-- The `Dial` method a writer is bound to: the interface value and the
error it returns. -/
abbrev Dialer := TCPWriter → List Event → String → Option NetConn × Option Error

/-- Go `TCPWriter.Dial` (tcpwriter.go:25-27): dials the stored address;
`net.Dial` already returns the interface. -/
def TCPWriter.Dial (env : Env) : Dialer :=
  fun w log _addr =>
    let r := env.netDial log "tcp" w.addr
    (r.1.map NetConn.live, r.2)

/-- Go `TLSWriter.Dial` (tlswriter.go:18-20): dials the given address under
the writer's TLS configuration and returns the `*tls.Conn` as a `net.Conn`,
which is never the nil interface: a nil pointer becomes `NetConn.nilPtr`. -/
def TLSWriter.Dial (env : Env) (cfg : TLSConfig) : Dialer :=
  fun _w log addr =>
    let r := env.tlsDial log "tcp" addr cfg
    (some (match r.1 with
           | some c => NetConn.live c
           | none => NetConn.nilPtr), r.2)

/-! ## Error values -/

/-- The error of tcpwriter.go:126 and tlswriter.go:111. -/
def errMaxReconnect : Error := "Maximum reconnection attempts was reached; giving up"

/-- The error of tcpwriter.go:107 and tlswriter.go:96. -/
def errConnNil : Error := "Connection was nil, will attempt reconnect"

/-- The verb `%s` applied to an `error` variable. -/
def errText : Option Error → String
  | none => "%!s(<nil>)"
  | some e => e

/-- The error of tcpwriter.go:129 and tlswriter.go:114. -/
def errWriteAndDial (err : Option Error) (errConn : Error) : Error :=
  "Write Failed: " ++ errText err ++ "\nReconnection failed: " ++ errConn

/-- The error of tcpwriter.go:69 and tlswriter.go:61. -/
def errBadWrite (n len : Int) : Error :=
  "bad write (" ++ toString n ++ "/" ++ toString len ++ ")"

/-- The runtime panic of an assignment into a nil map. -/
def panicNilMap : String := "assignment to entry in nil map"

/-- The runtime panic of a method call through a nil pointer. -/
def panicNilDeref : String := "invalid memory address or nil pointer dereference"

/-! ## The retry loop, the flush and the write path -/

/-- The local variables of `writeToSocketWithReconnectAttempts` and the state
they are used with. -/
structure LoopVars where
  i : Int
  n : Int
  err : Option Error
  errConn : Option Error
  st : State

/-- The `if w.conn != nil` statement of tcpwriter.go:101-108 and
tlswriter.go:90-97: the raw write on a live connection, the `Connection was
nil` error on the nil interface; `none` when the call of `Write` through a nil
pointer panics. -/
def rawWriteAttempt (env : Env) (zBytes : Bytes) (v : LoopVars) : Option LoopVars :=
  match v.st.w.conn with
  | some (NetConn.live c) =>
    let r := env.connWrite v.st.log c zBytes
    some { v with n := r.1, err := r.2,
                  st := { v.st with log := v.st.log ++ [Event.write c zBytes] } }
  | some NetConn.nilPtr => none
  | none => some { v with err := some errConnNil }

/-- The `for i = 0; i <= w.MaxReconnect; i++` loop of tcpwriter.go:98-121 and
tlswriter.go:87-107.  The first argument bounds the number of iterations;
`none` means the bound was reached with the guard still true.  It is started at
`MaxReconnect + 1`, which is enough unless the counter wraps. -/
def retryLoop (env : Env) (dial : Dialer) (zBytes : Bytes) :
    Nat → LoopVars → Option (Result LoopVars)
  | 0, v => if v.i ≤ v.st.w.MaxReconnect then none else some (Result.ok v)
  | k + 1, v =>
    if v.i ≤ v.st.w.MaxReconnect then
      let v1 : LoopVars := { v with errConn := none }
      match rawWriteAttempt env zBytes v1 with
      | none => some (Result.panic v1.st panicNilDeref)
      | some v2 =>
        match v2.err with
        | some _ =>
          let log1 := v2.st.log ++ [Event.sleep v2.st.w.ReconnectDelay]
          let r := dial v2.st.w log1 v2.st.w.addr
          retryLoop env dial zBytes k
            { v2 with i := wrapInt (v2.i + 1), errConn := r.2,
                      st := { w := { v2.st.w with conn := r.1 },
                              log := log1 ++ [Event.dial v2.st.w.addr] } }
        | none => some (Result.ok v2)
    else some (Result.ok v)

/-- The `for m := range w.MessageBuffer` loop of tcpwriter.go:131-138 and
tlswriter.go:116-123 over the keys the map had when the loop started; a key
deleted before its turn is not produced.  `wm` is the `WriteMessage` the loop
calls, `none` when that call does not return. -/
def flushLoop (wm : State → Message → Option (Result (State × Option Error))) :
    List Message → State → Option (Result State)
  | [], s => some (Result.ok s)
  | m :: rest, s =>
    if m ∈ mapKeys s.w.MessageBuffer then
      match wm s m with
      | none => none
      | some (Result.panic s1 msg) => some (Result.panic s1 msg)
      | some (Result.ok (s1, none)) =>
        flushLoop wm rest
          { s1 with w := { s1.w with MessageBuffer := mapDelete s1.w.MessageBuffer m } }
      | some (Result.ok (s1, some _)) => flushLoop wm rest s1
    else flushLoop wm rest s

/-- The initial values of the locals (`n`, `err`, `errConn` nil, `i` zero). -/
def initVars (s : State) : LoopVars :=
  { i := 0, n := 0, err := none, errConn := none, st := s }

/-- Go `writeToSocketWithReconnectAttempts` (tcpwriter.go:91-141,
tlswriter.go:82-126).  `none` when the loop or a nested `WriteMessage` does
not come to an end. -/
def writeToSocketWithReconnectAttempts (env : Env) (dial : Dialer)
    (wm : State → Message → Option (Result (State × Option Error))) (s : State)
    (zBytes : Bytes) : Option (Result (State × Int × Option Error)) :=
  match retryLoop env dial zBytes (s.w.MaxReconnect + 1).toNat (initVars s) with
  | none => none
  | some (Result.panic s1 msg) => some (Result.panic s1 msg)
  | some (Result.ok v) =>
    if v.i > v.st.w.MaxReconnect then
      some (Result.ok (v.st, 0, some errMaxReconnect))
    else
      match v.errConn with
      | some ec => some (Result.ok (v.st, 0, some (errWriteAndDial v.err ec)))
      | none =>
        match flushLoop wm (mapKeys v.st.w.MessageBuffer) v.st with
        | none => none
        | some (Result.panic s1 msg) => some (Result.panic s1 msg)
        | some (Result.ok s1) => some (Result.ok (s1, v.n, none))

/-- Go `WriteMessage` (tcpwriter.go:53-73, tlswriter.go:46-65).  The first
argument bounds the depth of nested `WriteMessage` calls; `none` means the
call did not come to an end within it. -/
def WriteMessage (env : Env) (dial : Dialer) :
    Nat → State → Message → Option (Result (State × Option Error))
  | 0, _, _ => none
  | fuel + 1, s, m =>
    match env.toBytes m with
    | (_, some e) => some (Result.ok (s, some e))
    | (b, none) =>
      let messageBytes : Bytes := b ++ [0]
      match writeToSocketWithReconnectAttempts env dial (WriteMessage env dial fuel) s
          messageBytes with
      | none => none
      | some (Result.panic s1 msg) => some (Result.panic s1 msg)
      | some (Result.ok (s1, _, some e)) => some (Result.ok (s1, some e))
      | some (Result.ok (s1, n, none)) =>
        if n ≠ (messageBytes.length : Int) then
          some (Result.ok (s1, some (errBadWrite n messageBytes.length)))
        else some (Result.ok (s1, none))

/-- How a call of `Write` ends. -/
inductive WriteResult where
  | returned (s : State) (n : Int) (err : Option Error)
  | panicked (s : State) (msg : String)

/-- Go `Write` (tcpwriter.go:75-89, tlswriter.go:67-80). -/
def Write (env : Env) (dial : Dialer) (fuel : Nat) (s : State) (p : Bytes) :
    Option WriteResult :=
  let fl := env.getCallerIgnoringLogMulti 1
  let m := env.constructMessage p s.w.hostname s.w.Facility fl.1 fl.2
  match WriteMessage env dial fuel s m with
  | none => none
  | some (Result.panic s1 msg) => some (WriteResult.panicked s1 msg)
  | some (Result.ok (s1, some e)) =>
    if !(mapGet s1.w.MessageBuffer m) then
      match s1.w.MessageBuffer with
      | none => some (WriteResult.panicked s1 panicNilMap)
      | some l =>
        some (WriteResult.returned
          { s1 with w := { s1.w with MessageBuffer := some (mapSet l m true) } } 0 (some e))
    else some (WriteResult.returned s1 0 (some e))
  | some (Result.ok (s1, none)) => some (WriteResult.returned s1 p.length none)

/-- Go `Close` (tcpwriter.go:144-153, tlswriter.go:129-138).  The timed
attempt to take the guard changes nothing the model tracks; the call of
`Close` through a nil pointer panics. -/
def Close (env : Env) (s : State) : Result (State × Option Error) :=
  match s.w.conn with
  | none => Result.ok (s, none)
  | some NetConn.nilPtr => Result.panic { s with log := s.log ++ [Event.sleep 1] } panicNilDeref
  | some (NetConn.live c) =>
    let log1 := s.log ++ [Event.sleep 1]
    Result.ok ({ s with log := log1 ++ [Event.close c] }, env.connClose log1 c)

/-! ## Constructors and the two variants -/

/-- Go `NewTCPWriter` (tcpwriter.go:29-47): the writer, or nil and the error. -/
def NewTCPWriter (env : Env) (log : List Event) (addr : String) :
    (Option TCPWriter × Option Error) × List Event :=
  let w : TCPWriter :=
    { addr := addr, conn := none, hostname := "", Facility := "", proto := "tcp",
      MaxReconnect := DefaultMaxReconnect, ReconnectDelay := DefaultReconnectDelay,
      MessageBuffer := some [] }
  let r := TCPWriter.Dial env w log addr
  let log1 := log ++ [Event.dial w.addr]
  match r.2 with
  | some e => ((none, some e), log1)
  | none =>
    match env.osHostname with
    | (_, some e) => ((none, some e), log1)
    | (h, none) => ((some { w with conn := r.1, hostname := h }, none), log1)

/-- Go `NewTLSWriter` (tlswriter.go:22-40): the writer, or nil and the error. -/
def NewTLSWriter (env : Env) (log : List Event) (addr : String) (tlsConfig : TLSConfig) :
    (Option TLSWriter × Option Error) × List Event :=
  let w : TCPWriter :=
    { addr := addr, conn := none, hostname := "", Facility := "", proto := "tls",
      MaxReconnect := DefaultMaxReconnect, ReconnectDelay := DefaultReconnectDelay,
      MessageBuffer := none }
  let r := TLSWriter.Dial env tlsConfig w log w.addr
  let log1 := log ++ [Event.dial w.addr]
  match r.2 with
  | some e => ((none, some e), log1)
  | none =>
    match env.osHostname with
    | (_, some e) => ((none, some e), log1)
    | (h, none) =>
      ((some { toTCPWriter := { w with conn := r.1, hostname := h }, TlsConfig := tlsConfig },
        none), log1)

/-- Go `TCPWriter.WriteMessage`. -/
def TCPWriter.WriteMessage (env : Env) (fuel : Nat) (s : State) (m : Message) :
    Option (Result (State × Option Error)) :=
  Gelf.WriteMessage env (TCPWriter.Dial env) fuel s m

/-- Go `TCPWriter.Write`. -/
def TCPWriter.Write (env : Env) (fuel : Nat) (s : State) (p : Bytes) : Option WriteResult :=
  Gelf.Write env (TCPWriter.Dial env) fuel s p

/-- Go `TLSWriter.WriteMessage`, on the embedded writer; no method assigns
`TlsConfig`. -/
def TLSWriter.WriteMessage (env : Env) (fuel : Nat) (w : TLSWriter) (log : List Event)
    (m : Message) : Option (Result (State × Option Error)) :=
  Gelf.WriteMessage env (TLSWriter.Dial env w.TlsConfig) fuel ⟨w.toTCPWriter, log⟩ m

/-- Go `TLSWriter.Write`, on the embedded writer; no method assigns `TlsConfig`. -/
def TLSWriter.Write (env : Env) (fuel : Nat) (w : TLSWriter) (log : List Event) (p : Bytes) :
    Option WriteResult :=
  Gelf.Write env (TLSWriter.Dial env w.TlsConfig) fuel ⟨w.toTCPWriter, log⟩ p

/-! ## Counting in the log -/

/-- The raw writes of a log, in order. -/
def rawWrites : List Event → List (Conn × Bytes)
  | [] => []
  | Event.write c b :: l => (c, b) :: rawWrites l
  | _ :: l => rawWrites l

/-- The number of dial calls in a log. -/
def dialCount : List Event → Nat
  | [] => 0
  | Event.dial _ :: l => dialCount l + 1
  | _ :: l => dialCount l

/-- The number of `conn.Close()` calls in a log. -/
def closeCount : List Event → Nat
  | [] => 0
  | Event.close _ :: l => closeCount l + 1
  | _ :: l => closeCount l

/-! ## Notions used to state the properties -/

/-- The message `Write` builds for the payload `p`. -/
def constructed (env : Env) (s : State) (p : Bytes) : Message :=
  env.constructMessage p s.w.hostname s.w.Facility
    (env.getCallerIgnoringLogMulti 1).1 (env.getCallerIgnoringLogMulti 1).2

/-- The state a failed iteration of the retry loop leaves behind when the
connection field is nil or live: the raw write if a connection was present,
then the sleep and the re-dial, whose connection result replaces the
connection field. -/
def afterFailedAttempt (dial : Dialer) (z : Bytes) (s : State) : State :=
  let log0 :=
    match s.w.conn with
    | some (NetConn.live c) => s.log ++ [Event.write c z]
    | _ => s.log
  let log1 := log0 ++ [Event.sleep s.w.ReconnectDelay]
  { w := { s.w with conn := (dial s.w log1 s.w.addr).1 }, log := log1 ++ [Event.dial s.w.addr] }

/-- The state at the start of iteration `j` (counted from zero) when every
earlier iteration failed. -/
def attemptStart (dial : Dialer) (z : Bytes) (s : State) : Nat → State
  | 0 => s
  | j + 1 => afterFailedAttempt dial z (attemptStart dial z s j)

/-- An iteration started in `s` succeeds: a live connection is present and its
raw write returns no error. -/
def attemptSucceeds (env : Env) (z : Bytes) (s : State) : Bool :=
  match s.w.conn with
  | some (NetConn.live c) => (env.connWrite s.log c z).2.isNone
  | _ => false

/-- No nil pointer is held in the connection field and `dial` never returns
one, as is the case of the TCP writer. -/
def NoNilPtr (dial : Dialer) (s : State) : Prop :=
  s.w.conn ≠ some NetConn.nilPtr ∧ ∀ w log addr, (dial w log addr).1 ≠ some NetConn.nilPtr

/-! ## Sample endpoints and writers -/

/-- An endpoint that is down: every raw write fails and every dial fails. -/
def downEnv : Env :=
  { connWrite := fun _ _ _ => (0, some "broken pipe")
    connClose := fun _ _ => none
    netDial := fun _ _ _ => (none, some "connection refused")
    tlsDial := fun _ _ _ _ => (none, some "connection refused")
    osHostname := ("host", none)
    toBytes := fun m => ([Fin.ofNat m], none)
    constructMessage := fun p _ _ _ _ => (p.headD 0).val
    getCallerIgnoringLogMulti := fun _ => ("main.go", 1) }

/-- A writer as `NewTCPWriter` leaves it on a reachable endpoint. -/
def sampleWriter : TCPWriter :=
  { addr := "collector:12201", conn := some (NetConn.live 1), hostname := "host",
    Facility := "", proto := "tcp", MaxReconnect := DefaultMaxReconnect,
    ReconnectDelay := DefaultReconnectDelay, MessageBuffer := some [] }

/-- An endpoint that answers the first dial and is down ever after. -/
def outageEnv : Env :=
  { downEnv with
    netDial := fun log _ _ =>
      if log = [] then (some 1, none) else (none, some "connection refused")
    tlsDial := fun log _ _ _ =>
      if log = [] then (some 1, none) else (none, some "connection refused") }

/-- A reachable endpoint whose serializer rejects every record. -/
def badRecordEnv : Env :=
  { connWrite := fun _ _ b => (b.length, none)
    connClose := fun _ _ => none
    netDial := fun _ _ _ => (some 1, none)
    tlsDial := fun _ _ _ _ => (some 1, none)
    osHostname := ("host", none)
    toBytes := fun _ => ([], some "json: unsupported value")
    constructMessage := fun p _ _ _ _ => (p.headD 0).val
    getCallerIgnoringLogMulti := fun _ => ("main.go", 1) }

/-- An endpoint whose connections report an error when closed again. -/
def closeEnv : Env :=
  { badRecordEnv with
    connClose := fun log c =>
      if Event.close c ∈ log then some "use of closed network connection" else none }

/-- An endpoint that accepts every connection and fails every raw write. -/
def resetEnv : Env :=
  { downEnv with
    connWrite := fun _ _ _ => (0, some "connection reset by peer")
    netDial := fun _ _ _ => (some 1, none)
    tlsDial := fun _ _ _ _ => (some 1, none) }

/-- The writer `NewTLSWriter` builds on a reachable endpoint. -/
def sampleTLSWriter : TLSWriter :=
  { toTCPWriter :=
      { addr := "collector:12201", conn := some (NetConn.live 1), hostname := "host",
        Facility := "", proto := "tls", MaxReconnect := DefaultMaxReconnect,
        ReconnectDelay := DefaultReconnectDelay, MessageBuffer := none }
    TlsConfig := 0 }

/-- An endpoint that accepts every connection, fails the raw writes of its
first twelve operations and accepts every raw write in full from then on. -/
def recoveringEnv : Env :=
  { downEnv with
    connWrite := fun log _ b =>
      if log.length < 12 then (0, some "broken pipe") else (b.length, none)
    netDial := fun _ _ _ => (some 2, none)
    tlsDial := fun _ _ _ _ => (some 2, none) }

/-- The sample writer after `Write` of the payload `[65]` failed on
`recoveringEnv`: reconnected, with the message 65 pending. -/
def afterOutage : State :=
  { w := { sampleWriter with conn := some (NetConn.live 2),
                             MessageBuffer := some [(65, true)] }
    log := [Event.write 1 [65, 0], Event.sleep 1, Event.dial "collector:12201",
            Event.write 2 [65, 0], Event.sleep 1, Event.dial "collector:12201",
            Event.write 2 [65, 0], Event.sleep 1, Event.dial "collector:12201",
            Event.write 2 [65, 0], Event.sleep 1, Event.dial "collector:12201"] }

/-- A reachable endpoint: every connection is accepted and every raw write is
accepted in full. -/
def healthyEnv : Env :=
  { downEnv with
    connWrite := fun _ _ b => (b.length, none)
    netDial := fun _ _ _ => (some 2, none)
    tlsDial := fun _ _ _ _ => (some 2, none) }

/-- A reachable endpoint whose connections take one byte less than offered. -/
def shortEnv : Env :=
  { healthyEnv with connWrite := fun _ _ b => ((b.length : Int) - 1, none) }

/-- An endpoint on which connection 1 is broken and every other connection,
among them the one a dial returns, accepts every raw write in full. -/
def staleEnv : Env :=
  { healthyEnv with
    connWrite := fun _ c b => if c = 1 then (0, some "broken pipe") else (b.length, none) }

/-! ## Lemmas on the log, the map and the retry loop -/

theorem toNat_succ_of_nonneg (M : Int) (hM : 0 ≤ M) :
    ∃ k : Nat, (M + 1).toNat = k + 1 ∧ (k : Int) = M :=
  ⟨M.toNat, by omega, by omega⟩

theorem wrapInt_eq (x : Int) (h1 : -9223372036854775808 ≤ x) (h2 : x < 9223372036854775808) :
    wrapInt x = x := by
  unfold wrapInt
  omega

theorem wrapInt_le_maxInt (x : Int) : wrapInt x ≤ maxInt := by
  unfold wrapInt maxInt
  omega

theorem rawWrites_append (l₁ l₂ : List Event) :
    rawWrites (l₁ ++ l₂) = rawWrites l₁ ++ rawWrites l₂ := by
  induction l₁ with
  | nil => rfl
  | cons e l ih => cases e <;> simp [rawWrites, ih]

theorem dialCount_append (l₁ l₂ : List Event) :
    dialCount (l₁ ++ l₂) = dialCount l₁ + dialCount l₂ := by
  induction l₁ with
  | nil => simp [dialCount]
  | cons e l ih => cases e <;> simp [dialCount, ih]; omega

theorem closeCount_append (l₁ l₂ : List Event) :
    closeCount (l₁ ++ l₂) = closeCount l₁ + closeCount l₂ := by
  induction l₁ with
  | nil => simp [closeCount]
  | cons e l ih => cases e <;> simp [closeCount, ih]; omega

theorem errBadWrite_ne_max (n len : Int) : errBadWrite n len ≠ errMaxReconnect := by
  intro h
  have := congrArg String.data h
  simp [errBadWrite, errMaxReconnect, String.data_append] at this

theorem attemptStart_succ_front (dial : Dialer) (z : Bytes) (s : State) (j : Nat) :
    attemptStart dial z s (j + 1) = attemptStart dial z (afterFailedAttempt dial z s) j := by
  induction j with
  | zero => rfl
  | succ j ih => simp only [attemptStart] at ih ⊢; rw [ih]

theorem afterFailedAttempt_fields (dial : Dialer) (z : Bytes) (s : State) :
    (afterFailedAttempt dial z s).w.MaxReconnect = s.w.MaxReconnect ∧
    (afterFailedAttempt dial z s).w.MessageBuffer = s.w.MessageBuffer := ⟨rfl, rfl⟩

theorem attemptStart_fields (dial : Dialer) (z : Bytes) (s : State) (j : Nat) :
    (attemptStart dial z s j).w.MaxReconnect = s.w.MaxReconnect ∧
    (attemptStart dial z s j).w.MessageBuffer = s.w.MessageBuffer := by
  induction j with
  | zero => exact ⟨rfl, rfl⟩
  | succ j ih => exact ih

theorem noNilPtr_afterFailedAttempt (dial : Dialer) (z : Bytes) (s : State)
    (h : NoNilPtr dial s) : NoNilPtr dial (afterFailedAttempt dial z s) :=
  ⟨h.2 _ _ _, h.2⟩

theorem tcpDial_noNilPtr (env : Env) (w : TCPWriter) (log : List Event) (addr : String) :
    (TCPWriter.Dial env w log addr).1 ≠ some NetConn.nilPtr := by
  unfold TCPWriter.Dial
  cases (env.netDial log "tcp" w.addr).1 <;> simp

theorem attemptSucceeds_iff (env : Env) (z : Bytes) (s : State) :
    attemptSucceeds env z s = true ↔
      ∃ c, s.w.conn = some (NetConn.live c) ∧ (env.connWrite s.log c z).2 = none := by
  unfold attemptSucceeds
  cases hc : s.w.conn with
  | none => simp
  | some nc =>
    cases nc with
    | live c => simp [Option.isNone_iff_eq_none]
    | nilPtr => simp

theorem retryLoop_step_fail (env : Env) (dial : Dialer) (z : Bytes) (k : Nat) (v : LoopVars)
    (hg : v.i ≤ v.st.w.MaxReconnect) (hi : 0 ≤ v.i) (hMb : v.st.w.MaxReconnect < maxInt)
    (hnp : v.st.w.conn ≠ some NetConn.nilPtr)
    (hf : attemptSucceeds env z v.st = false) :
    ∃ n err errConn, retryLoop env dial z (k + 1) v =
      retryLoop env dial z k
        { i := v.i + 1, n := n, err := err, errConn := errConn,
          st := afterFailedAttempt dial z v.st } := by
  have hwrap : wrapInt (v.i + 1) = v.i + 1 := by
    unfold maxInt at hMb
    exact wrapInt_eq _ (by omega) (by omega)
  cases hc : v.st.w.conn with
  | none =>
    refine ⟨v.n, some errConnNil,
      (dial v.st.w (v.st.log ++ [Event.sleep v.st.w.ReconnectDelay]) v.st.w.addr).2, ?_⟩
    simp only [retryLoop, hg, if_true, rawWriteAttempt, hc, afterFailedAttempt, hwrap]
  | some nc =>
    cases nc with
    | nilPtr => exact absurd hc hnp
    | live c =>
      simp only [attemptSucceeds, hc] at hf
      cases he : (env.connWrite v.st.log c z).2 with
      | none => simp [he] at hf
      | some e =>
        refine ⟨(env.connWrite v.st.log c z).1, some e,
          (dial v.st.w (v.st.log ++ [Event.write c z] ++ [Event.sleep v.st.w.ReconnectDelay])
            v.st.w.addr).2, ?_⟩
        simp only [retryLoop, hg, if_true, rawWriteAttempt, hc, he, afterFailedAttempt, hwrap]

theorem retryLoop_step_ok (env : Env) (dial : Dialer) (z : Bytes) (k : Nat) (v : LoopVars)
    (c : Conn) (hg : v.i ≤ v.st.w.MaxReconnect) (hc : v.st.w.conn = some (NetConn.live c))
    (hw : (env.connWrite v.st.log c z).2 = none) :
    retryLoop env dial z (k + 1) v =
      some (Result.ok
        { i := v.i, n := (env.connWrite v.st.log c z).1, err := none, errConn := none,
          st := { v.st with log := v.st.log ++ [Event.write c z] } }) := by
  simp only [retryLoop, hg, if_true, rawWriteAttempt, hc, hw]

theorem retryLoop_first_ok (env : Env) (dial : Dialer) (z : Bytes) (s : State) (c : Conn)
    (hconn : s.w.conn = some (NetConn.live c)) (hM : 0 ≤ s.w.MaxReconnect)
    (hw : (env.connWrite s.log c z).2 = none) :
    retryLoop env dial z (s.w.MaxReconnect + 1).toNat (initVars s) =
      some (Result.ok
        { i := 0, n := (env.connWrite s.log c z).1, err := none, errConn := none,
          st := { s with log := s.log ++ [Event.write c z] } }) := by
  obtain ⟨k, hk, _⟩ := toNat_succ_of_nonneg _ hM
  rw [hk]
  exact retryLoop_step_ok env dial z k (initVars s) c hM hconn hw

/-- When none of the `k` remaining iterations succeeds the loop runs them all. -/
theorem retryLoop_all_fail (env : Env) (dial : Dialer) (z : Bytes) :
    ∀ (k : Nat) (v : LoopVars), v.i + k = v.st.w.MaxReconnect + 1 → 0 ≤ v.i →
      v.st.w.MaxReconnect < maxInt → NoNilPtr dial v.st →
      (∀ j < k, attemptSucceeds env z (attemptStart dial z v.st j) = false) →
      ∃ r, retryLoop env dial z k v = some (Result.ok r) ∧
        r.i = v.st.w.MaxReconnect + 1 ∧ r.st = attemptStart dial z v.st k := by
  intro k
  induction k with
  | zero =>
    intro v hk _ _ _ _
    refine ⟨v, ?_, by omega, rfl⟩
    have : ¬ v.i ≤ v.st.w.MaxReconnect := by omega
    simp only [retryLoop, this, if_false]
  | succ k ih =>
    intro v hk hi hMb hnp hall
    have hg : v.i ≤ v.st.w.MaxReconnect := by omega
    obtain ⟨n, err, ec, hstep⟩ :=
      retryLoop_step_fail env dial z k v hg hi hMb hnp.1 (hall 0 (by omega))
    rw [hstep]
    have hM := (afterFailedAttempt_fields dial z v.st).1
    obtain ⟨r, hr, hri, hrs⟩ :=
      ih { i := v.i + 1, n := n, err := err, errConn := ec,
           st := afterFailedAttempt dial z v.st }
      (by simp only [hM]; omega) (by simp only; omega) (by simp only [hM]; exact hMb)
      (noNilPtr_afterFailedAttempt dial z v.st hnp)
      (fun j hj => by
        have := hall (j + 1) (by omega)
        rwa [attemptStart_succ_front] at this)
    simp only [hM] at hri
    exact ⟨r, hr, hri, by rw [hrs, attemptStart_succ_front]⟩

/-- When iteration `j` is the first that succeeds the loop stops right after
its raw write. -/
theorem retryLoop_first_success (env : Env) (dial : Dialer) (z : Bytes) :
    ∀ (j k : Nat) (v : LoopVars) (c : Conn), v.i + k = v.st.w.MaxReconnect + 1 → j < k →
      0 ≤ v.i → v.st.w.MaxReconnect < maxInt → NoNilPtr dial v.st →
      (∀ i < j, attemptSucceeds env z (attemptStart dial z v.st i) = false) →
      (attemptStart dial z v.st j).w.conn = some (NetConn.live c) →
      (env.connWrite (attemptStart dial z v.st j).log c z).2 = none →
      retryLoop env dial z k v =
        some (Result.ok
          { i := v.i + j, n := (env.connWrite (attemptStart dial z v.st j).log c z).1,
            err := none, errConn := none,
            st := { attemptStart dial z v.st j with
                    log := (attemptStart dial z v.st j).log ++ [Event.write c z] } }) := by
  intro j
  induction j with
  | zero =>
    intro k v c hk hjk _ _ _ _ hc hw
    obtain ⟨k, rfl⟩ : ∃ k', k = k' + 1 := ⟨k - 1, by omega⟩
    simp only [attemptStart] at hc hw ⊢
    rw [retryLoop_step_ok env dial z k v c (by omega) hc hw]
    simp
  | succ j ih =>
    intro k v c hk hjk hi hMb hnp hall hc hw
    obtain ⟨k, rfl⟩ : ∃ k', k = k' + 1 := ⟨k - 1, by omega⟩
    have hg : v.i ≤ v.st.w.MaxReconnect := by omega
    obtain ⟨n, err, ec, hstep⟩ :=
      retryLoop_step_fail env dial z k v hg hi hMb hnp.1 (hall 0 (by omega))
    rw [hstep]
    rw [attemptStart_succ_front] at hc hw
    have hM := (afterFailedAttempt_fields dial z v.st).1
    have := ih k { i := v.i + 1, n := n, err := err, errConn := ec,
                   st := afterFailedAttempt dial z v.st } c
      (by simp only [hM]; omega) (by omega) (by simp only; omega)
      (by simp only [hM]; exact hMb) (noNilPtr_afterFailedAttempt dial z v.st hnp)
      (fun i hi => by
        have := hall (i + 1) (by omega)
        rwa [attemptStart_succ_front] at this)
      hc hw
    rw [this, attemptStart_succ_front]
    simp only [Option.some.injEq, Result.ok.injEq, LoopVars.mk.injEq, and_true, true_and]
    push_cast
    omega

theorem dialCount_afterFailedAttempt (dial : Dialer) (z : Bytes) (s : State) :
    dialCount (afterFailedAttempt dial z s).log = dialCount s.log + 1 := by
  unfold afterFailedAttempt
  rcases s.w.conn with _ | _ | _ <;> simp [dialCount_append, dialCount]

theorem rawWrites_afterFailedAttempt (dial : Dialer) (z : Bytes) (s : State) :
    (rawWrites (afterFailedAttempt dial z s).log).length ≤ (rawWrites s.log).length + 1 := by
  unfold afterFailedAttempt
  rcases s.w.conn with _ | _ | _ <;> simp [rawWrites_append, rawWrites]

theorem dialCount_attemptStart (dial : Dialer) (z : Bytes) (s : State) (j : Nat) :
    dialCount (attemptStart dial z s j).log = dialCount s.log + j := by
  induction j with
  | zero => rfl
  | succ j ih =>
    simp only [attemptStart]
    rw [dialCount_afterFailedAttempt, ih]
    omega

theorem rawWrites_attemptStart (dial : Dialer) (z : Bytes) (s : State) (j : Nat) :
    (rawWrites (attemptStart dial z s j).log).length ≤ (rawWrites s.log).length + j := by
  induction j with
  | zero => exact Nat.le_refl _
  | succ j ih =>
    simp only [attemptStart]
    have := rawWrites_afterFailedAttempt dial z (attemptStart dial z s j)
    omega

theorem wtswra_first_ok (env : Env) (dial : Dialer)
    (wm : State → Message → Option (Result (State × Option Error))) (s : State) (z : Bytes)
    (c : Conn) (hconn : s.w.conn = some (NetConn.live c)) (hM : 0 ≤ s.w.MaxReconnect)
    (hw : (env.connWrite s.log c z).2 = none) (hbuf : mapKeys s.w.MessageBuffer = []) :
    writeToSocketWithReconnectAttempts env dial wm s z =
      some (Result.ok ({ s with log := s.log ++ [Event.write c z] },
        (env.connWrite s.log c z).1, none)) := by
  unfold writeToSocketWithReconnectAttempts
  rw [retryLoop_first_ok env dial z s c hconn hM hw]
  simp [not_lt.mpr hM, hbuf, flushLoop]

theorem wtswra_all_fail (env : Env) (dial : Dialer)
    (wm : State → Message → Option (Result (State × Option Error))) (s : State) (z : Bytes)
    (hM : 0 ≤ s.w.MaxReconnect) (hMb : s.w.MaxReconnect < maxInt) (hnp : NoNilPtr dial s)
    (hall : ∀ j : Nat, (j : Int) ≤ s.w.MaxReconnect →
      attemptSucceeds env z (attemptStart dial z s j) = false) :
    writeToSocketWithReconnectAttempts env dial wm s z =
      some (Result.ok (attemptStart dial z s (s.w.MaxReconnect + 1).toNat, 0,
        some errMaxReconnect)) := by
  obtain ⟨r, hr, hri, hrs⟩ :=
    retryLoop_all_fail env dial z (s.w.MaxReconnect + 1).toNat (initVars s)
      (by simp only [initVars]; omega) (by simp [initVars]) hMb hnp
      (fun j hj => hall j (by omega))
  simp only [initVars] at hr hri hrs
  unfold writeToSocketWithReconnectAttempts
  simp only [initVars, hr, hri, hrs, (attemptStart_fields dial z s _).1]
  simp

theorem wtswra_success_at (env : Env) (dial : Dialer)
    (wm : State → Message → Option (Result (State × Option Error))) (s : State) (z : Bytes)
    (j : Nat) (c : Conn) (hj : (j : Int) ≤ s.w.MaxReconnect)
    (hMb : s.w.MaxReconnect < maxInt) (hnp : NoNilPtr dial s)
    (hbuf : mapKeys s.w.MessageBuffer = [])
    (hfirst : ∀ i < j, attemptSucceeds env z (attemptStart dial z s i) = false)
    (hc : (attemptStart dial z s j).w.conn = some (NetConn.live c))
    (hw : (env.connWrite (attemptStart dial z s j).log c z).2 = none) :
    writeToSocketWithReconnectAttempts env dial wm s z =
      some (Result.ok ({ attemptStart dial z s j with
              log := (attemptStart dial z s j).log ++ [Event.write c z] },
            (env.connWrite (attemptStart dial z s j).log c z).1, none)) := by
  have h := retryLoop_first_success env dial z j (s.w.MaxReconnect + 1).toNat (initVars s) c
    (by simp only [initVars]; omega) (by omega) (by simp [initVars]) hMb hnp hfirst hc hw
  unfold writeToSocketWithReconnectAttempts
  rw [h]
  have hM := (attemptStart_fields dial z s j).1
  have hB := (attemptStart_fields dial z s j).2
  simp only [initVars, hM, hB, hbuf, flushLoop, zero_add]
  simp [not_lt.mpr hj]

theorem rawWriteAttempt_fields (env : Env) (z : Bytes) (v v2 : LoopVars)
    (h : rawWriteAttempt env z v = some v2) :
    v2.st.w = v.st.w ∧ v2.i = v.i ∧ v2.errConn = v.errConn := by
  unfold rawWriteAttempt at h
  rcases hc : v.st.w.conn with _ | c | _ <;> simp only [hc] at h
  · simp only [Option.some.injEq] at h
    subst h
    exact ⟨rfl, rfl, rfl⟩
  · simp only [Option.some.injEq] at h
    subst h
    exact ⟨rfl, rfl, rfl⟩
  · simp at h

/-- The retry loop never touches the pending set or the retry bound, and when
it ends it is either past the bound or with no dial error pending. -/
theorem retryLoop_inv (env : Env) (dial : Dialer) (z : Bytes) :
    ∀ (k : Nat) (v r : LoopVars), retryLoop env dial z k v = some (Result.ok r) →
      r.st.w.MessageBuffer = v.st.w.MessageBuffer ∧
      r.st.w.MaxReconnect = v.st.w.MaxReconnect ∧
      (r.i > v.st.w.MaxReconnect ∨ r.errConn = none) := by
  intro k
  induction k with
  | zero =>
    intro v r h
    by_cases hg : v.i ≤ v.st.w.MaxReconnect
    · simp [retryLoop, hg] at h
    · simp only [retryLoop, hg, if_false, Option.some.injEq, Result.ok.injEq] at h
      subst h
      exact ⟨rfl, rfl, Or.inl (by omega)⟩
  | succ k ih =>
    intro v r h
    by_cases hg : v.i ≤ v.st.w.MaxReconnect
    · simp only [retryLoop, hg, if_true] at h
      cases ha : rawWriteAttempt env z { v with errConn := none } with
      | none => simp [ha] at h
      | some v2 =>
        obtain ⟨hw, _, hec⟩ := rawWriteAttempt_fields env z _ v2 ha
        simp only [ha] at h
        cases he : v2.err with
        | none =>
          simp only [he, Option.some.injEq, Result.ok.injEq] at h
          subst h
          exact ⟨by rw [hw], by rw [hw], Or.inr hec⟩
        | some e =>
          simp only [he] at h
          have := ih _ r h
          simp only [hw] at this
          exact this
    · simp only [retryLoop, hg, if_false, Option.some.injEq, Result.ok.injEq] at h
      subst h
      exact ⟨rfl, rfl, Or.inl (by omega)⟩

/-- Every error `writeToSocketWithReconnectAttempts` returns is the
retry-exhausted one, returned with a zero count before any flush. -/
theorem wtswra_error (env : Env) (dial : Dialer)
    (wm : State → Message → Option (Result (State × Option Error))) (s s1 : State)
    (z : Bytes) (n : Int) (e : Error)
    (h : writeToSocketWithReconnectAttempts env dial wm s z =
      some (Result.ok (s1, n, some e))) :
    e = errMaxReconnect ∧ n = 0 ∧ s1.w.MessageBuffer = s.w.MessageBuffer := by
  unfold writeToSocketWithReconnectAttempts at h
  rcases hl : retryLoop env dial z (s.w.MaxReconnect + 1).toNat (initVars s)
    with _ | ⟨r⟩ | ⟨s2, msg⟩
  · simp [hl] at h
  · obtain ⟨hB, hM, hdead⟩ := retryLoop_inv env dial z _ _ r hl
    simp only [initVars] at hB hM hdead
    simp only [hl] at h
    by_cases hi : r.i > r.st.w.MaxReconnect
    · simp only [hi, if_true, Option.some.injEq, Result.ok.injEq, Prod.mk.injEq] at h
      obtain ⟨h1, h2, h3⟩ := h
      exact ⟨h3.symm, h2.symm, by rw [← h1, hB]⟩
    · have hec := hdead.resolve_left (by rw [← hM]; exact hi)
      simp only [hi, if_false, hec] at h
      split at h <;> simp at h
  · simp [hl] at h

/-- With a negative `MaxReconnect` the loop body never runs: the call gives up
at once, with no raw write and no dial. -/
theorem wtswra_negative_bound (env : Env) (dial : Dialer)
    (wm : State → Message → Option (Result (State × Option Error))) (s : State) (z : Bytes)
    (hM : s.w.MaxReconnect < 0) :
    writeToSocketWithReconnectAttempts env dial wm s z =
      some (Result.ok (s, 0, some errMaxReconnect)) := by
  have hk : (s.w.MaxReconnect + 1).toNat = 0 := by omega
  have hg : ¬ (0 : Int) ≤ s.w.MaxReconnect := by omega
  unfold writeToSocketWithReconnectAttempts
  rw [hk]
  simp only [retryLoop, initVars, hg, if_false, gt_iff_lt, hM, if_true]

/-- With nothing pending the flush changes nothing. -/
theorem wtswra_buffer_of_empty (env : Env) (dial : Dialer)
    (wm : State → Message → Option (Result (State × Option Error))) (s s1 : State)
    (z : Bytes) (n : Int) (r : Option Error) (hbuf : mapKeys s.w.MessageBuffer = [])
    (h : writeToSocketWithReconnectAttempts env dial wm s z = some (Result.ok (s1, n, r))) :
    s1.w.MessageBuffer = s.w.MessageBuffer := by
  unfold writeToSocketWithReconnectAttempts at h
  rcases hl : retryLoop env dial z (s.w.MaxReconnect + 1).toNat (initVars s)
    with _ | ⟨v⟩ | ⟨s2, msg⟩
  · simp [hl] at h
  · have hB := (retryLoop_inv env dial z _ _ v hl).1
    simp only [initVars] at hB
    simp only [hl, hB, hbuf, flushLoop] at h
    split at h
    · simp only [Option.some.injEq, Result.ok.injEq, Prod.mk.injEq] at h
      rw [← h.1, hB]
    · split at h
      · simp only [Option.some.injEq, Result.ok.injEq, Prod.mk.injEq] at h
        rw [← h.1, hB]
      · simp only [Option.some.injEq, Result.ok.injEq, Prod.mk.injEq] at h
        rw [← h.1, hB]
  · simp [hl] at h

theorem writeMessage_buffer_of_empty (env : Env) (dial : Dialer) (fuel : Nat) (s s1 : State)
    (m : Message) (r : Option Error) (hbuf : mapKeys s.w.MessageBuffer = [])
    (h : WriteMessage env dial fuel s m = some (Result.ok (s1, r))) :
    s1.w.MessageBuffer = s.w.MessageBuffer := by
  cases fuel with
  | zero => simp [WriteMessage] at h
  | succ fuel =>
    simp only [WriteMessage] at h
    split at h
    · simp only [Option.some.injEq, Result.ok.injEq, Prod.mk.injEq] at h
      rw [← h.1]
    · split at h
      · simp at h
      · simp at h
      · next heq =>
        simp only [Option.some.injEq, Result.ok.injEq, Prod.mk.injEq] at h
        rw [← h.1]
        exact wtswra_buffer_of_empty env dial _ s _ _ _ _ hbuf heq
      · next heq =>
        have := wtswra_buffer_of_empty env dial _ s _ _ _ _ hbuf heq
        split at h <;>
        · simp only [Option.some.injEq, Result.ok.injEq, Prod.mk.injEq] at h
          rw [← h.1]
          exact this

theorem mapKeys_mapSet (l : List (Message × Bool)) (m : Message) (v : Bool) :
    (mapSet l m v).map Prod.fst =
      if m ∈ l.map Prod.fst then l.map Prod.fst else l.map Prod.fst ++ [m] := by
  unfold mapSet
  split
  · rw [List.map_map]
    apply List.map_congr_left
    intro e _
    simp only [Function.comp]
    split <;> rfl
  · simp

theorem mem_keys_of_mapGet (l : List (Message × Bool)) (m : Message)
    (h : mapGet (some l) m = true) : m ∈ l.map Prod.fst := by
  induction l with
  | nil => simp [mapGet] at h
  | cons e l ih =>
    obtain ⟨k, b⟩ := e
    by_cases hk : m = k
    · simp [hk]
    · have hk2 : (m == k) = false := by simpa using hk
      simp only [mapGet, List.lookup, hk2] at h
      simp only [List.map_cons, List.mem_cons]
      exact Or.inr (ih (by simpa [mapGet] using h))

theorem newTCPWriter_buffer (env : Env) (log log1 : List Event) (addr : String) (w : TCPWriter)
    (r : Option Error) (h : NewTCPWriter env log addr = ((some w, r), log1)) :
    w.MessageBuffer = some [] := by
  unfold NewTCPWriter at h
  simp only at h
  split at h
  · simp at h
  · split at h
    · simp at h
    · simp only [Prod.mk.injEq, Option.some.injEq] at h
      rw [← h.1.1]

theorem newTLSWriter_buffer (env : Env) (log log1 : List Event) (addr : String)
    (cfg : TLSConfig) (w : TLSWriter) (r : Option Error)
    (h : NewTLSWriter env log addr cfg = ((some w, r), log1)) :
    w.toTCPWriter.MessageBuffer = none := by
  unfold NewTLSWriter at h
  simp only at h
  split at h
  · simp at h
  · split at h
    · simp at h
    · simp only [Prod.mk.injEq, Option.some.injEq] at h
      rw [← h.1.1]

/-- With `MaxReconnect` at the largest `int` the counter wraps and the guard
of the retry loop holds on every iteration: when no iteration succeeds the
loop ends within no number of iterations. -/
theorem retryLoop_maxInt_never_exits (env : Env) (dial : Dialer) (z : Bytes) :
    ∀ (k : Nat) (v : LoopVars), v.st.w.MaxReconnect = maxInt → v.i ≤ maxInt →
      NoNilPtr dial v.st → (∀ s, attemptSucceeds env z s = false) →
      retryLoop env dial z k v = none := by
  intro k
  induction k with
  | zero =>
    intro v hM hi _ _
    simp only [retryLoop, hM, hi, if_true]
  | succ k ih =>
    intro v hM hi hnp hall
    have hg : v.i ≤ v.st.w.MaxReconnect := by rw [hM]; exact hi
    have hf := hall v.st
    simp only [retryLoop, hg, if_true]
    rcases hc : v.st.w.conn with _ | c | _
    · simp only [rawWriteAttempt, hc]
      exact ih _ hM (wrapInt_le_maxInt _) ⟨hnp.2 _ _ _, hnp.2⟩ hall
    · simp only [attemptSucceeds, hc] at hf
      cases he : (env.connWrite v.st.log c z).2 with
      | none => simp [he] at hf
      | some e =>
        simp only [rawWriteAttempt, hc, he]
        exact ih _ hM (wrapInt_le_maxInt _) ⟨hnp.2 _ _ _, hnp.2⟩ hall
    · exact absurd hc hnp.1

/-! ## The properties -/

/-- C1 (happy path): with a connection present, an empty pending set,
`MaxReconnect >= 0` and a record that serializes to `b`, if the raw write of
the framed payload accepts all of it without error, `Write p` returns
`(len p, nil)`; the only operation it adds to the log is one raw write of
`b` followed by one zero byte, it dials nothing, and the writer (its pending
set included) is unchanged. -/
theorem write_happy_path (env : Env) (dial : Dialer) (fuel : Nat) (s : State) (p b : Bytes)
    (c : Conn) (hconn : s.w.conn = some (NetConn.live c))
    (hbuf : mapKeys s.w.MessageBuffer = [])
    (hM : 0 ≤ s.w.MaxReconnect) (hser : env.toBytes (constructed env s p) = (b, none))
    (hw : env.connWrite s.log c (b ++ [0]) = (((b ++ [0]).length : Int), none)) :
    Write env dial (fuel + 1) s p =
        some (WriteResult.returned { s with log := s.log ++ [Event.write c (b ++ [0])] }
          p.length none) ∧
      rawWrites (s.log ++ [Event.write c (b ++ [0])]) = rawWrites s.log ++ [(c, b ++ [0])] ∧
      dialCount (s.log ++ [Event.write c (b ++ [0])]) = dialCount s.log := by
  refine ⟨?_, by simp [rawWrites_append, rawWrites], by simp [dialCount_append, dialCount]⟩
  have h2 : (env.connWrite s.log c (b ++ [0])).2 = none := by rw [hw]
  have hwm : WriteMessage env dial (fuel + 1) s (constructed env s p) =
      some (Result.ok ({ s with log := s.log ++ [Event.write c (b ++ [0])] }, none)) := by
    simp only [WriteMessage, hser]
    rw [wtswra_first_ok env dial _ s (b ++ [0]) c hconn hM h2 hbuf, hw]
    simp
  unfold Write
  simp only [constructed] at hwm
  simp only [hwm]

/-- Witness of C1 on the reachable endpoint. -/
theorem write_happy_path_witness :
    Write healthyEnv (TCPWriter.Dial healthyEnv) 1 ⟨sampleWriter, []⟩ [7] =
      some (WriteResult.returned ⟨sampleWriter, [Event.write 1 [7, 0]]⟩ 1 none) :=
  (write_happy_path healthyEnv (TCPWriter.Dial healthyEnv) 0 ⟨sampleWriter, []⟩ [7] [7] 1
    rfl rfl (by decide) rfl rfl).1

/-- C8 (short-write detection): with a connection present, an empty pending
set, `MaxReconnect >= 0` and a record that serializes to `b`, if the raw write
of the framed payload returns a count `n` other than the frame length and no
error, `WriteMessage` returns the `bad write` error, which is not the
retry-exhausted error, after exactly one raw write and no dial. -/
theorem writeMessage_short_write (env : Env) (dial : Dialer) (fuel : Nat) (s : State)
    (m : Message) (b : Bytes) (c : Conn) (n : Int)
    (hconn : s.w.conn = some (NetConn.live c)) (hbuf : mapKeys s.w.MessageBuffer = [])
    (hM : 0 ≤ s.w.MaxReconnect) (hser : env.toBytes m = (b, none))
    (hw : env.connWrite s.log c (b ++ [0]) = (n, none))
    (hn : n ≠ ((b ++ [0]).length : Int)) :
    WriteMessage env dial (fuel + 1) s m =
        some (Result.ok ({ s with log := s.log ++ [Event.write c (b ++ [0])] },
          some (errBadWrite n ((b ++ [0]).length : Int)))) ∧
      errBadWrite n ((b ++ [0]).length : Int) ≠ errMaxReconnect ∧
      rawWrites (s.log ++ [Event.write c (b ++ [0])]) = rawWrites s.log ++ [(c, b ++ [0])] ∧
      dialCount (s.log ++ [Event.write c (b ++ [0])]) = dialCount s.log := by
  refine ⟨?_, errBadWrite_ne_max _ _, by simp [rawWrites_append, rawWrites],
    by simp [dialCount_append, dialCount]⟩
  have h2 : (env.connWrite s.log c (b ++ [0])).2 = none := by rw [hw]
  simp only [WriteMessage, hser]
  rw [wtswra_first_ok env dial _ s (b ++ [0]) c hconn hM h2 hbuf, hw]
  simp only [ne_eq, hn, not_false_eq_true, if_true]

/-- Witness of C8 on the endpoint that takes one byte less than offered. -/
theorem writeMessage_short_write_witness :
    WriteMessage shortEnv (TCPWriter.Dial shortEnv) 1 ⟨sampleWriter, []⟩ 7 =
      some (Result.ok (⟨sampleWriter, [Event.write 1 [7, 0]]⟩, some (errBadWrite 1 2))) :=
  (writeMessage_short_write shortEnv (TCPWriter.Dial shortEnv) 0 ⟨sampleWriter, []⟩ 7 [7] 1 1
    rfl rfl (by decide) rfl rfl (by decide)).1

/-- C3 (bounded retries, amended): on the TCP writer, whose connection field
holds no nil pointer, for `0 <= MaxReconnect < 2^63 - 1`, when every raw write
fails, whatever the dials return, one call returns zero and the
retry-exhausted error after at most `MaxReconnect + 1` raw writes and exactly
`MaxReconnect + 1` dials. -/
theorem retry_exhausted_bounds (env : Env)
    (wm : State → Message → Option (Result (State × Option Error))) (s : State) (z : Bytes)
    (hM : 0 ≤ s.w.MaxReconnect) (hMb : s.w.MaxReconnect < maxInt)
    (hconn : s.w.conn ≠ some NetConn.nilPtr)
    (hw : ∀ log c b, (env.connWrite log c b).2 ≠ none) :
    ∃ s1, writeToSocketWithReconnectAttempts env (TCPWriter.Dial env) wm s z =
        some (Result.ok (s1, 0, some errMaxReconnect)) ∧
      (rawWrites s1.log).length ≤ (rawWrites s.log).length + (s.w.MaxReconnect + 1).toNat ∧
      dialCount s1.log = dialCount s.log + (s.w.MaxReconnect + 1).toNat := by
  refine ⟨attemptStart (TCPWriter.Dial env) z s (s.w.MaxReconnect + 1).toNat, ?_,
    rawWrites_attemptStart _ z s _, dialCount_attemptStart _ z s _⟩
  apply wtswra_all_fail env _ wm s z hM hMb ⟨hconn, tcpDial_noNilPtr env⟩
  intro j _
  cases h : attemptSucceeds env z (attemptStart (TCPWriter.Dial env) z s j) with
  | false => rfl
  | true =>
    obtain ⟨c, _, hc⟩ := (attemptSucceeds_iff env z _).1 h
    exact absurd hc (hw _ c z)

/-- Witness of C3 at the down endpoint and the sample writer. -/
theorem retry_exhausted_bounds_witness :
    ((0 : Int) ≤ sampleWriter.MaxReconnect ∧ sampleWriter.MaxReconnect < maxInt) ∧
    ∃ s1, writeToSocketWithReconnectAttempts downEnv (TCPWriter.Dial downEnv)
        (fun _ _ => none) ⟨sampleWriter, []⟩ [0] =
          some (Result.ok (s1, 0, some errMaxReconnect)) ∧
      (rawWrites s1.log).length ≤ 0 + 4 ∧ dialCount s1.log = 0 + 4 :=
  ⟨⟨by decide, by decide⟩,
   retry_exhausted_bounds downEnv (fun _ _ => none)
     ⟨sampleWriter, []⟩ [0] (by decide) (by decide) (by decide)
     (fun _ _ _ => by simp [downEnv])⟩

/-- C3 as stated fails: at the down endpoint, where every raw write and every
dial fails, the sample TCP writer (`MaxReconnect = 3`) dials four times. -/
theorem retry_dials_counterexample :
    (∀ log c b, (downEnv.connWrite log c b).2 ≠ none) ∧
    (∀ log, (TCPWriter.Dial downEnv sampleWriter log sampleWriter.addr).2 ≠ none) ∧
    ∃ s1, writeToSocketWithReconnectAttempts downEnv (TCPWriter.Dial downEnv)
        (fun _ _ => none) ⟨sampleWriter, []⟩ [0] =
          some (Result.ok (s1, 0, some errMaxReconnect)) ∧
      dialCount s1.log = 4 ∧ ¬ (dialCount s1.log ≤ sampleWriter.MaxReconnect.toNat) :=
  ⟨fun _ _ _ => by simp [downEnv], fun _ => by simp [downEnv, TCPWriter.Dial],
   ⟨_, rfl, by decide, by decide⟩⟩

/-- C9 (combined terminal error): at the down endpoint every attempt of the
sample writer fails and the last dial fails too, yet the error returned is the
plain retry-exhausted one: it is not the combined message and holds neither
the text of the write failure nor that of the dial failure. -/
theorem exhausted_error_is_not_combined :
    (∀ log c b, (downEnv.connWrite log c b).2 = some "broken pipe") ∧
    (∀ log, (TCPWriter.Dial downEnv sampleWriter log sampleWriter.addr).2 =
      some "connection refused") ∧
    (∃ s1, writeToSocketWithReconnectAttempts downEnv (TCPWriter.Dial downEnv)
        (fun _ _ => none) ⟨sampleWriter, []⟩ [0] =
          some (Result.ok (s1, 0, some errMaxReconnect))) ∧
    errMaxReconnect ≠ errWriteAndDial (some "broken pipe") "connection refused" ∧
    ¬ ("broken pipe".data <:+: errMaxReconnect.data) ∧
    ¬ ("connection refused".data <:+: errMaxReconnect.data) :=
  ⟨fun _ _ _ => rfl, fun _ => rfl, ⟨_, rfl⟩, by decide, by decide, by decide⟩

/-- C10 (retry loop characterisation) fails on the TLS writer: at the down
endpoint the first iteration of the sample TLS writer has a connection whose
raw write fails, the re-dial fails and `TLSWriter.Dial` stores the nil
`*tls.Conn` in the connection field; the second iteration finds the field not
nil and panics in the raw write, after one raw write and one dial, where the
claim has the call run on and return the retry-exhausted error.  The TCP
writer on the same endpoint does return it. -/
theorem tls_retry_panics_after_failed_dial :
    (0 : Int) ≤ sampleTLSWriter.toTCPWriter.MaxReconnect ∧
    mapKeys sampleTLSWriter.toTCPWriter.MessageBuffer = [] ∧
    (∀ log, TLSWriter.Dial downEnv sampleTLSWriter.TlsConfig sampleTLSWriter.toTCPWriter log
        sampleTLSWriter.toTCPWriter.addr = (some NetConn.nilPtr, some "connection refused")) ∧
    writeToSocketWithReconnectAttempts downEnv
        (TLSWriter.Dial downEnv sampleTLSWriter.TlsConfig) (fun _ _ => none)
        ⟨sampleTLSWriter.toTCPWriter, []⟩ [0] =
      some (Result.panic
        ⟨{ sampleTLSWriter.toTCPWriter with conn := some NetConn.nilPtr },
         [Event.write 1 [0], Event.sleep 1, Event.dial "collector:12201"]⟩
        panicNilDeref) ∧
    (∃ s1, writeToSocketWithReconnectAttempts downEnv (TCPWriter.Dial downEnv)
        (fun _ _ => none) ⟨{ sampleTLSWriter.toTCPWriter with proto := "tcp" }, []⟩ [0] =
      some (Result.ok (s1, 0, some errMaxReconnect))) :=
  ⟨by decide, rfl, fun _ => rfl, rfl, ⟨_, rfl⟩⟩

/-- The retry loop of a writer that holds no nil pointer, for
`0 <= MaxReconnect < 2^63 - 1` and an empty pending set, whatever the
connection state, the raw writes and the dials do: if iteration
`j <= MaxReconnect` is the first in which a connection is present and its raw
write returns no error, the call returns that write's count and nil, after `j`
failed iterations with one dial each and nothing after the successful write;
if no iteration up to `MaxReconnect` succeeds it returns zero and the
retry-exhausted error, wherever the last dial led; and it returns a nil error
exactly when some iteration up to `MaxReconnect` succeeds. -/
theorem retry_loop_characterisation (env : Env) (dial : Dialer)
    (wm : State → Message → Option (Result (State × Option Error))) (s : State) (z : Bytes)
    (hM : 0 ≤ s.w.MaxReconnect) (hMb : s.w.MaxReconnect < maxInt) (hnp : NoNilPtr dial s)
    (hbuf : mapKeys s.w.MessageBuffer = []) :
    (∀ j : Nat, (j : Int) ≤ s.w.MaxReconnect →
      attemptSucceeds env z (attemptStart dial z s j) = true →
      (∀ i < j, attemptSucceeds env z (attemptStart dial z s i) = false) →
      ∃ c, (attemptStart dial z s j).w.conn = some (NetConn.live c) ∧
        writeToSocketWithReconnectAttempts env dial wm s z =
          some (Result.ok ({ attemptStart dial z s j with
                  log := (attemptStart dial z s j).log ++ [Event.write c z] },
                (env.connWrite (attemptStart dial z s j).log c z).1, none)) ∧
        dialCount ((attemptStart dial z s j).log ++ [Event.write c z]) = dialCount s.log + j) ∧
    ((∀ j : Nat, (j : Int) ≤ s.w.MaxReconnect →
        attemptSucceeds env z (attemptStart dial z s j) = false) →
      writeToSocketWithReconnectAttempts env dial wm s z =
        some (Result.ok (attemptStart dial z s (s.w.MaxReconnect + 1).toNat, 0,
          some errMaxReconnect))) ∧
    ((∃ s1 n, writeToSocketWithReconnectAttempts env dial wm s z =
        some (Result.ok (s1, n, none))) ↔
      ∃ j : Nat, (j : Int) ≤ s.w.MaxReconnect ∧
        attemptSucceeds env z (attemptStart dial z s j) = true) := by
  have hA : ∀ j : Nat, (j : Int) ≤ s.w.MaxReconnect →
      attemptSucceeds env z (attemptStart dial z s j) = true →
      (∀ i < j, attemptSucceeds env z (attemptStart dial z s i) = false) →
      ∃ c, (attemptStart dial z s j).w.conn = some (NetConn.live c) ∧
        writeToSocketWithReconnectAttempts env dial wm s z =
          some (Result.ok ({ attemptStart dial z s j with
                  log := (attemptStart dial z s j).log ++ [Event.write c z] },
                (env.connWrite (attemptStart dial z s j).log c z).1, none)) ∧
        dialCount ((attemptStart dial z s j).log ++ [Event.write c z]) =
          dialCount s.log + j := by
    intro j hj hs hfirst
    obtain ⟨c, hc, hw⟩ := (attemptSucceeds_iff env z _).1 hs
    refine ⟨c, hc, wtswra_success_at env dial wm s z j c hj hMb hnp hbuf hfirst hc hw, ?_⟩
    rw [dialCount_append, dialCount_attemptStart]
    simp [dialCount]
  refine ⟨hA, wtswra_all_fail env dial wm s z hM hMb hnp, ?_, ?_⟩
  · rintro ⟨s1, n, hres⟩
    by_contra hno
    have hall : ∀ j : Nat, (j : Int) ≤ s.w.MaxReconnect →
        attemptSucceeds env z (attemptStart dial z s j) = false := by
      intro j hj
      cases h : attemptSucceeds env z (attemptStart dial z s j) with
      | false => rfl
      | true => exact absurd ⟨j, hj, h⟩ hno
    rw [wtswra_all_fail env dial wm s z hM hMb hnp hall] at hres
    simp at hres
  · intro hex
    have hfind := Nat.find_spec hex
    obtain ⟨c, _, hres, _⟩ := hA (Nat.find hex) hfind.1 hfind.2 (fun i hi => by
      have hmin := Nat.find_min hex hi
      cases h : attemptSucceeds env z (attemptStart dial z s i) with
      | false => rfl
      | true => exact absurd ⟨by omega, h⟩ hmin)
    exact ⟨_, _, hres⟩

/-- C4 (submit failure buffers the record): for a writer whose pending map
is allocated, as `NewTCPWriter` leaves it, and a record that serializes, if
the delivery gives up with an error then `Write` returns zero and that error,
no operation is added after the failed delivery, the constructed message is
in the pending set, every earlier entry is still there, and no key is entered
twice: a key set without duplicates stays so, and a message already present
leaves the key set as it was. -/
theorem write_failure_buffers (env : Env) (dial : Dialer) (fuel : Nat) (s s1 : State)
    (p b : Bytes) (l : List (Message × Bool)) (n : Int) (e : Error)
    (hbuf : s.w.MessageBuffer = some l)
    (hser : env.toBytes (constructed env s p) = (b, none))
    (hfail : writeToSocketWithReconnectAttempts env dial (WriteMessage env dial fuel) s
      (b ++ [0]) = some (Result.ok (s1, n, some e))) :
    ∃ s2, Write env dial (fuel + 1) s p = some (WriteResult.returned s2 0 (some e)) ∧
      s2.log = s1.log ∧
      constructed env s p ∈ mapKeys s2.w.MessageBuffer ∧
      (∀ k, k ∈ mapKeys s.w.MessageBuffer → k ∈ mapKeys s2.w.MessageBuffer) ∧
      ((mapKeys s.w.MessageBuffer).Nodup → (mapKeys s2.w.MessageBuffer).Nodup) ∧
      (constructed env s p ∈ mapKeys s.w.MessageBuffer →
        mapKeys s2.w.MessageBuffer = mapKeys s.w.MessageBuffer) := by
  have hB : s1.w.MessageBuffer = some l := by
    rw [(wtswra_error env dial _ s s1 _ n e hfail).2.2, hbuf]
  have hwm : WriteMessage env dial (fuel + 1) s (constructed env s p) =
      some (Result.ok (s1, some e)) := by
    simp only [WriteMessage, hser, hfail]
  have hW : Write env dial (fuel + 1) s p =
      if !(mapGet (some l) (constructed env s p)) then
        some (WriteResult.returned
          { s1 with w := { s1.w with
              MessageBuffer := some (mapSet l (constructed env s p) true) } } 0 (some e))
      else some (WriteResult.returned s1 0 (some e)) := by
    unfold Write
    simp only [constructed] at hwm ⊢
    simp only [hwm, hB]
  cases hg : mapGet (some l) (constructed env s p) with
  | true =>
    have hmem := mem_keys_of_mapGet l _ hg
    have hW2 : Write env dial (fuel + 1) s p = some (WriteResult.returned s1 0 (some e)) := by
      rw [hW, hg]
      rfl
    refine ⟨s1, hW2, rfl, ?_, ?_, ?_, ?_⟩ <;> simp only [hB, hbuf, mapKeys]
    · exact hmem
    · exact fun k hk => hk
    · exact fun hk => hk
    · exact fun _ => trivial
  | false =>
    have hW2 : Write env dial (fuel + 1) s p = some (WriteResult.returned
        { s1 with w := { s1.w with
            MessageBuffer := some (mapSet l (constructed env s p) true) } } 0 (some e)) := by
      rw [hW, hg]
      rfl
    refine ⟨_, hW2, rfl, ?_, ?_, ?_, ?_⟩ <;> simp only [hbuf, mapKeys, mapKeys_mapSet]
    · split
      · assumption
      · simp
    · intro k hk
      split
      · exact hk
      · simp [hk]
    · intro hnd
      split
      · exact hnd
      · next hnot =>
        rw [List.nodup_append]
        refine ⟨hnd, List.nodup_singleton _, ?_⟩
        intro a ha hb
        simp only [List.mem_singleton] at hb
        exact hnot (hb ▸ ha)
    · intro hk
      simp [hk]

/-- Witness of C4: a writer built by `NewTCPWriter` whose endpoint then goes
down. -/
theorem write_failure_buffers_witness :
    NewTCPWriter outageEnv [] "collector:12201" =
        ((some sampleWriter, none), [Event.dial "collector:12201"]) ∧
      ∃ s2, Write outageEnv (TCPWriter.Dial outageEnv) 1
          ⟨sampleWriter, [Event.dial "collector:12201"]⟩ [7] =
            some (WriteResult.returned s2 0 (some errMaxReconnect)) ∧
        constructed outageEnv ⟨sampleWriter, [Event.dial "collector:12201"]⟩ [7] ∈
          mapKeys s2.w.MessageBuffer :=
  ⟨rfl, by
    obtain ⟨s2, h, _, hm, _⟩ :=
      write_failure_buffers outageEnv (TCPWriter.Dial outageEnv) 0
        ⟨sampleWriter, [Event.dial "collector:12201"]⟩ _ [7] [7] [] 0 errMaxReconnect
        rfl rfl rfl
    exact ⟨s2, h, hm⟩⟩

/-- C5 (encrypted variant on failure): for a writer built by `NewTLSWriter`,
whenever the delivery of the record `Write` constructs returns an error,
`Write` does not return: it panics on the assignment into the pending map,
which `NewTLSWriter` never allocates. -/
theorem tls_write_failure_panics (env : Env) (log log1 : List Event) (addr : String)
    (cfg : TLSConfig) (w : TLSWriter) (r : Option Error)
    (hnew : NewTLSWriter env log addr cfg = ((some w, r), log1))
    (fuel : Nat) (log2 : List Event) (p : Bytes) (s1 : State) (e : Error)
    (hfail : TLSWriter.WriteMessage env fuel w log2
      (constructed env ⟨w.toTCPWriter, log2⟩ p) = some (Result.ok (s1, some e))) :
    TLSWriter.Write env fuel w log2 p = some (WriteResult.panicked s1 panicNilMap) := by
  have hnil := newTLSWriter_buffer env log log1 addr cfg w r hnew
  unfold TLSWriter.WriteMessage at hfail
  have hB : s1.w.MessageBuffer = none := by
    rw [writeMessage_buffer_of_empty env _ fuel ⟨w.toTCPWriter, log2⟩ s1 _ _
      (by simp only [hnil, mapKeys]) hfail, hnil]
  unfold TLSWriter.Write Write
  simp only [constructed] at hfail
  simp only [hfail, hB, mapGet]
  rfl

/-- Witness of C5: the writer `NewTLSWriter` builds, on an endpoint that then
resets every write. -/
theorem tls_write_failure_panics_witness :
    NewTLSWriter resetEnv [] "collector:12201" 0 =
        ((some sampleTLSWriter, none), [Event.dial "collector:12201"]) ∧
      ∃ s1, TLSWriter.Write resetEnv 1 sampleTLSWriter [Event.dial "collector:12201"] [7] =
        some (WriteResult.panicked s1 panicNilMap) :=
  ⟨rfl, _, tls_write_failure_panics resetEnv [] [Event.dial "collector:12201"]
    "collector:12201" 0 sampleTLSWriter none rfl 1 [Event.dial "collector:12201"] [7] _
    errMaxReconnect rfl⟩

/-- C6 (serialization failure, amended): for a writer whose pending map is
allocated and a record whose serialization returns an error, `WriteMessage`
returns that error and changes nothing; `Write` returns zero and that error
with no raw write and no dial, and enters the constructed message in the
pending set, keeping every earlier entry. -/
theorem write_serialization_failure (env : Env) (dial : Dialer) (fuel : Nat) (s : State)
    (p b : Bytes) (e : Error) (l : List (Message × Bool))
    (hbuf : s.w.MessageBuffer = some l)
    (hser : env.toBytes (constructed env s p) = (b, some e)) :
    WriteMessage env dial (fuel + 1) s (constructed env s p) = some (Result.ok (s, some e)) ∧
    ∃ s2, Write env dial (fuel + 1) s p = some (WriteResult.returned s2 0 (some e)) ∧
      s2.log = s.log ∧
      constructed env s p ∈ mapKeys s2.w.MessageBuffer ∧
      (∀ k, k ∈ mapKeys s.w.MessageBuffer → k ∈ mapKeys s2.w.MessageBuffer) ∧
      (constructed env s p ∉ mapKeys s.w.MessageBuffer →
        mapKeys s2.w.MessageBuffer = mapKeys s.w.MessageBuffer ++ [constructed env s p]) := by
  have hwm : WriteMessage env dial (fuel + 1) s (constructed env s p) =
      some (Result.ok (s, some e)) := by
    simp only [WriteMessage, hser]
  refine ⟨hwm, ?_⟩
  have hW : Write env dial (fuel + 1) s p =
      if !(mapGet (some l) (constructed env s p)) then
        some (WriteResult.returned
          { s with w := { s.w with
              MessageBuffer := some (mapSet l (constructed env s p) true) } } 0 (some e))
      else some (WriteResult.returned s 0 (some e)) := by
    unfold Write
    simp only [constructed] at hwm ⊢
    simp only [hwm, hbuf]
  cases hg : mapGet (some l) (constructed env s p) with
  | true =>
    have hmem := mem_keys_of_mapGet l _ hg
    have hW2 : Write env dial (fuel + 1) s p = some (WriteResult.returned s 0 (some e)) := by
      rw [hW, hg]
      rfl
    refine ⟨s, hW2, rfl, ?_, ?_, ?_⟩ <;> simp only [hbuf, mapKeys]
    · exact hmem
    · exact fun k hk => hk
    · exact fun hk => absurd hmem hk
  | false =>
    have hW2 : Write env dial (fuel + 1) s p = some (WriteResult.returned
        { s with w := { s.w with
            MessageBuffer := some (mapSet l (constructed env s p) true) } } 0 (some e)) := by
      rw [hW, hg]
      rfl
    refine ⟨_, hW2, rfl, ?_, ?_, ?_⟩ <;> simp only [hbuf, mapKeys, mapKeys_mapSet]
    · split
      · assumption
      · simp
    · intro k hk
      split
      · exact hk
      · simp [hk]
    · intro hk
      simp [hk]

/-- Witness of C6 on the endpoint whose serializer rejects every record. -/
theorem write_serialization_failure_witness :
    sampleWriter.MessageBuffer = some [] ∧
    badRecordEnv.toBytes (constructed badRecordEnv ⟨sampleWriter, []⟩ [7]) =
      ([], some "json: unsupported value") ∧
    WriteMessage badRecordEnv (TCPWriter.Dial badRecordEnv) 1 ⟨sampleWriter, []⟩
      (constructed badRecordEnv ⟨sampleWriter, []⟩ [7]) =
        some (Result.ok (⟨sampleWriter, []⟩, some "json: unsupported value")) :=
  ⟨rfl, rfl,
   (write_serialization_failure badRecordEnv (TCPWriter.Dial badRecordEnv) 0
     ⟨sampleWriter, []⟩ [7] [] "json: unsupported value" [] rfl rfl).1⟩

/-- C6 as stated fails: the serializer rejects the record, `Write` returns the
error without any network operation, and the pending set, empty before, holds
the rejected message afterwards. -/
theorem serialization_failure_counterexample :
    (badRecordEnv.toBytes (constructed badRecordEnv ⟨sampleWriter, []⟩ [7])).2 =
      some "json: unsupported value" ∧
    mapKeys sampleWriter.MessageBuffer = [] ∧
    Write badRecordEnv (TCPWriter.Dial badRecordEnv) 1 ⟨sampleWriter, []⟩ [7] =
      some (WriteResult.returned
        ⟨{ sampleWriter with MessageBuffer := some [(7, true)] }, []⟩ 0
        (some "json: unsupported value")) ∧
    mapKeys (some [((7 : Message), true)]) ≠ mapKeys sampleWriter.MessageBuffer :=
  ⟨rfl, rfl, rfl, by decide⟩

/-- C7 (close twice, amended): without a connection `Close` returns nil and
changes nothing; with a connection it calls the connection's close once,
returns what that returns and leaves the connection field set, so a second
`Close` calls the connection's close a second time and returns what the
closed connection's close returns then. -/
theorem close_twice (env : Env) (s : State) :
    (s.w.conn = none → Close env s = Result.ok (s, none)) ∧
    (∀ c, s.w.conn = some (NetConn.live c) →
      Close env s =
        Result.ok (⟨s.w, s.log ++ [Event.sleep 1] ++ [Event.close c]⟩,
          env.connClose (s.log ++ [Event.sleep 1]) c) ∧
      Close env ⟨s.w, s.log ++ [Event.sleep 1] ++ [Event.close c]⟩ =
        Result.ok (⟨s.w, s.log ++ [Event.sleep 1] ++ [Event.close c] ++ [Event.sleep 1] ++
            [Event.close c]⟩,
          env.connClose (s.log ++ [Event.sleep 1] ++ [Event.close c] ++ [Event.sleep 1]) c) ∧
      closeCount (s.log ++ [Event.sleep 1] ++ [Event.close c] ++ [Event.sleep 1] ++
        [Event.close c]) = closeCount s.log + 2) := by
  constructor
  · intro h
    simp only [Close, h]
  · intro c h
    refine ⟨by simp only [Close, h], by simp only [Close, h], ?_⟩
    simp [closeCount_append, closeCount]

/-- Witness of C7 at the sample writer, which holds connection 1. -/
theorem close_twice_witness :
    sampleWriter.conn = some (NetConn.live 1) ∧
    Close closeEnv ⟨sampleWriter, [Event.sleep 1, Event.close 1]⟩ =
      Result.ok (⟨sampleWriter,
          [Event.sleep 1, Event.close 1, Event.sleep 1, Event.close 1]⟩,
        closeEnv.connClose [Event.sleep 1, Event.close 1, Event.sleep 1] 1) :=
  ⟨rfl, ((close_twice closeEnv ⟨sampleWriter, []⟩).2 1 rfl).2.1⟩

/-- C7 as stated fails: on a connection whose close reports an error once it
is closed, the first `Close` returns nil, the second calls the connection's
close again and returns its error. -/
theorem close_twice_counterexample :
    Close closeEnv ⟨sampleWriter, []⟩ =
      Result.ok (⟨sampleWriter, [Event.sleep 1, Event.close 1]⟩, none) ∧
    Close closeEnv ⟨sampleWriter, [Event.sleep 1, Event.close 1]⟩ =
      Result.ok (⟨sampleWriter,
          [Event.sleep 1, Event.close 1, Event.sleep 1, Event.close 1]⟩,
        some "use of closed network connection") :=
  ⟨by rfl, by rfl⟩

/-- The flush does not return when the map holds a serializable record `A` and
the nested `WriteMessage` returns for no serializable record. -/
theorem flushLoop_diverges (env : Env)
    (wm : State → Message → Option (Result (State × Option Error))) (s : State) (A : Message)
    (hA : (env.toBytes A).2 = none) (hmem : A ∈ mapKeys s.w.MessageBuffer)
    (hok : ∀ m, (env.toBytes m).2 = none → wm s m = none)
    (hbad : ∀ m, (env.toBytes m).2 ≠ none →
      wm s m = none ∨ ∃ e, wm s m = some (Result.ok (s, some e))) :
    ∀ keys : List Message, A ∈ keys → flushLoop wm keys s = none := by
  intro keys
  induction keys with
  | nil => intro h; simp at h
  | cons k rest ih =>
    intro hk
    by_cases hser : (env.toBytes k).2 = none
    · by_cases hin : k ∈ mapKeys s.w.MessageBuffer
      · simp only [flushLoop, hin, if_true, hok k hser]
      · have hne : A ≠ k := fun h => hin (h ▸ hmem)
        simp only [flushLoop, hin, if_false]
        exact ih (by simpa [hne] using hk)
    · have hne : A ≠ k := fun h => hser (h ▸ hA)
      have hrest : A ∈ rest := by simpa [hne] using hk
      by_cases hin : k ∈ mapKeys s.w.MessageBuffer
      · rcases hbad k hser with h | ⟨e, h⟩
        · simp only [flushLoop, hin, if_true, h]
        · simp only [flushLoop, hin, if_true, h]
          exact ih hrest
      · simp only [flushLoop, hin, if_false]
        exact ih hrest

/-- With a serializable record pending and a connection that returns no error,
`WriteMessage` of a serializable record returns within no bound on the
nesting. -/
theorem writeMessage_diverges (env : Env) (dial : Dialer) (log0 : List Event) (A : Message)
    (hA : (env.toBytes A).2 = none)
    (hnet : ∀ ext c b, (env.connWrite (log0 ++ ext) c b).2 = none) :
    ∀ (fuel : Nat) (s : State) (m : Message) (c : Conn), (∃ ext, s.log = log0 ++ ext) →
      s.w.conn = some (NetConn.live c) → 0 ≤ s.w.MaxReconnect →
      A ∈ mapKeys s.w.MessageBuffer →
      (env.toBytes m).2 = none → WriteMessage env dial fuel s m = none := by
  intro fuel
  induction fuel with
  | zero => intro s m c _ _ _ _ _; rfl
  | succ fuel ih =>
    intro s m c hext hconn hM hmem hser
    obtain ⟨ext, hlog⟩ := hext
    rcases hb : env.toBytes m with ⟨b, r⟩
    simp only [hb] at hser
    subst hser
    have hw : (env.connWrite s.log c (b ++ [0])).2 = none := by rw [hlog]; exact hnet _ _ _
    have hflush : flushLoop (WriteMessage env dial fuel) (mapKeys s.w.MessageBuffer)
        { s with log := s.log ++ [Event.write c (b ++ [0])] } = none := by
      refine flushLoop_diverges env _ ⟨s.w, s.log ++ [Event.write c (b ++ [0])]⟩ A hA hmem
        ?_ ?_ _ hmem
      · intro m2 hm2
        exact ih _ m2 c ⟨ext ++ [Event.write c (b ++ [0])], by simp [hlog]⟩ hconn hM hmem hm2
      · intro m2 hm2
        cases fuel with
        | zero => exact Or.inl rfl
        | succ fuel =>
          right
          rcases hb2 : env.toBytes m2 with ⟨b2, r2⟩
          simp only [hb2] at hm2
          obtain ⟨e2, rfl⟩ := Option.ne_none_iff_exists'.1 hm2
          exact ⟨e2, by simp only [WriteMessage, hb2]⟩
    simp only [WriteMessage, hb]
    unfold writeToSocketWithReconnectAttempts
    rw [retryLoop_first_ok env dial (b ++ [0]) s c hconn hM hw]
    simp only [not_lt.mpr hM, gt_iff_lt, if_false, hflush]

/-- C2 (recovery flush): with a connection present, `MaxReconnect >= 0`, a
serializable record `A` in the pending set and a connection that from now on
accepts every raw write in full without error, `Write` of a serializable
record returns within no bound on the nesting of `WriteMessage`: the flush
re-enters itself on `A` before `A` is deleted. -/
theorem write_recovery_flush_diverges (env : Env) (dial : Dialer) (s : State) (p : Bytes)
    (c : Conn) (A : Message) (hconn : s.w.conn = some (NetConn.live c))
    (hM : 0 ≤ s.w.MaxReconnect)
    (hmem : A ∈ mapKeys s.w.MessageBuffer) (hA : (env.toBytes A).2 = none)
    (hB : (env.toBytes (constructed env s p)).2 = none)
    (hnet : ∀ ext c b, env.connWrite (s.log ++ ext) c b = ((b.length : Int), none)) :
    ∀ fuel, Write env dial fuel s p = none := by
  intro fuel
  have h := writeMessage_diverges env dial s.log A hA (fun ext c b => by rw [hnet])
    fuel s (constructed env s p) c ⟨[], by simp⟩ hconn hM hmem hB
  unfold Write
  simp only [constructed] at h
  simp only [h]

/-- Witness of C2: `Write` of `[65]` fails on `recoveringEnv` and leaves the
message pending; the endpoint then accepts everything and `Write` of `[66]`
does not return. -/
theorem write_recovery_flush_diverges_witness :
    Write recoveringEnv (TCPWriter.Dial recoveringEnv) 1 ⟨sampleWriter, []⟩ [65] =
      some (WriteResult.returned afterOutage 0 (some errMaxReconnect)) ∧
    (∀ ext c b, recoveringEnv.connWrite (afterOutage.log ++ ext) c b =
      ((b.length : Int), none)) ∧
    ∀ fuel, Write recoveringEnv (TCPWriter.Dial recoveringEnv) fuel afterOutage [66] = none :=
  have hnet : ∀ ext c b, recoveringEnv.connWrite (afterOutage.log ++ ext) c b =
      ((b.length : Int), none) := fun ext c b => by
    simp [recoveringEnv, afterOutage]
  ⟨rfl, hnet,
   write_recovery_flush_diverges recoveringEnv (TCPWriter.Dial recoveringEnv) afterOutage [66]
     2 65 rfl (by decide) (by decide) rfl rfl hnet⟩

end Gelf
